import Mathlib

/-!
Shallow embedding of the price-ladder reconstruction engine of
`price_ladder_viewer.py` (class `MarketData`), together with proofs of the
properties stated in the specification.

Modelling conventions:
* Prices and timestamps are IEEE doubles in the source; here they are exact
  rationals (`ℚ`), and `math.isclose` is embedded by its documented formula
  with its default tolerances (`rel_tol = 1e-9`, `abs_tol = 0.0`).
* Display cells are Python strings that are either empty (`''`, falsy) or
  `str(n)` for an integer `n`; they are embedded as `Option ℤ`
  (`none` = empty string, `some n` = `str(n)`), which is faithful because
  `str(n)` is never empty and `int(str(n)) = n`.
* The price-label column (column 2) holds `price_format.format(level)`; it is
  embedded by the level value it displays (`Option ℚ`).
* `np.linspace(a, a - (n-1)*t, n)` is embedded by its exact arithmetic value,
  the list of `a - i*t` for `i < n`.
* A pandas lookup of a missing label/position raises (`KeyError`/`IndexError`);
  fallible operations therefore return `Option`, with `none` for the raise.
-/

namespace PriceLadder

/-- A quote record: one row of `quotes_df`
(columns `time_value, bid_price, bid_size, ask_price, ask_size`). -/
structure Quote where
  time_value : ℚ
  bid_price : ℚ
  bid_size : ℤ
  ask_price : ℚ
  ask_size : ℤ
deriving DecidableEq, Repr

/-- A trade record: one row of `trades_df`
(columns `time_value, price, volume`). -/
structure Trade where
  time_value : ℚ
  price : ℚ
  volume : ℤ
deriving DecidableEq, Repr

/-- One display row of `_price_ladder_df` (5 columns).  Columns 0,1,3,4 hold
either the empty string or a stringified integer, embedded as `Option ℤ`;
column 2 holds the formatted price label, embedded by the level it shows. -/
structure Row where
  col0 : Option ℤ
  col1 : Option ℤ
  col2 : Option ℚ
  col3 : Option ℤ
  col4 : Option ℤ
deriving DecidableEq, Repr

/-- The configuration fields the engine reads: `row_count` and `tick_size`. -/
structure Config where
  row_count : ℕ
  tick_size : ℚ
deriving DecidableEq, Repr

/-- The mutable state of a `MarketData` instance:
`_price_ladder` (an array of levels, `None` before the first quote),
`_price_ladder_df` (`row_count` × 5 cells), the two cursors
`_quotes_row`/`_trades_row`, and the two immutable record streams. -/
structure MarketData where
  config : Config
  price_ladder : Option (List ℚ)
  price_ladder_df : List Row
  quotes_row : ℕ
  trades_row : ℕ
  quotes_df : List Quote
  trades_df : List Trade
deriving DecidableEq, Repr

/-- The default relative tolerance of `math.isclose` (`rel_tol = 1e-9`). -/
def relTol : ℚ := 1 / 1000000000

/-- `math.isclose(a, b)` with default arguments:
`abs(a-b) <= max(rel_tol * max(abs(a), abs(b)), abs_tol)` with
`rel_tol = 1e-9` and `abs_tol = 0.0`. -/
def isclose (a b : ℚ) : Bool :=
  decide (|a - b| ≤ relTol * max |a| |b|)

/-- A freshly created display cell row: every column is the empty string. -/
def emptyRow : Row :=
  { col0 := none, col1 := none, col2 := none, col3 := none, col4 := none }

/-- `MarketData.__init__`: empty ladder, a `row_count` × 5 dataframe of empty
strings, both cursors at 0, and the two streams pulled from the database. -/
def init (cfg : Config) (quotes : List Quote) (trades : List Trade) :
    MarketData :=
  { config := cfg
    price_ladder := none
    price_ladder_df := List.replicate cfg.row_count emptyRow
    quotes_row := 0
    trades_row := 0
    quotes_df := quotes
    trades_df := trades }

/-- The levels produced by
`np.linspace(max_price, max_price - (row_count-1)*tick_size, row_count)`:
`max_price - i * tick_size` for `i < row_count`. -/
def anchorLevels (max_price tick_size : ℚ) (row_count : ℕ) : List ℚ :=
  (List.range row_count).map (fun (i : ℕ) => max_price - (i : ℚ) * tick_size)

/-- The top price chosen when re-anchoring:
`ask_price + tick_size * np.floor((row_count - 1) / 2)` (real division,
then floor — `Int.fdiv` is floor division). -/
def reanchorTop (cfg : Config) (q : Quote) : ℚ :=
  q.ask_price + cfg.tick_size * ((Int.fdiv ((cfg.row_count : ℤ) - 1) 2 : ℤ) : ℚ)

/-- The dataframe right after re-anchoring: columns 0,1,3,4 cleared on every
row, column 2 set to the formatted level. -/
def anchoredDf (pl : List ℚ) : List Row :=
  pl.map (fun l =>
    { col0 := none, col1 := none, col2 := some l, col3 := none, col4 := none })

/-- The re-anchor test of `_update_quote` (lines 138–142):
`quotes_row == 0 or ask_price > ladder[0] + .5*tick or
bid_price < ladder[-1] - .5*tick`.  Evaluating the second or third disjunct
with `_price_ladder` unset (or empty) raises, hence `none` there. -/
def reanchorCheck (md : MarketData) (q : Quote) : Option Bool :=
  if md.quotes_row = 0 then some true
  else
    match md.price_ladder with
    | none => none
    | some pl =>
      match pl.head?, pl.getLast? with
      | some top, some bot =>
        some (decide (top + (1/2) * md.config.tick_size < q.ask_price) ||
              decide (q.bid_price < bot - (1/2) * md.config.tick_size))
      | _, _ => none

/-- One iteration of the quote placement loop (lines 156–168) at level
`level`: column 3 gets `str(ask_size)` when `isclose(level, ask_price)` else
`''`; column 1 gets `str(bid_size)` when `isclose(level, bid_price)` else
`''`.  Columns 0, 2, 4 are untouched. -/
def applyQuoteRow (q : Quote) (level : ℚ) (r : Row) : Row :=
  { r with
    col3 := if isclose level q.ask_price then some q.ask_size else none
    col1 := if isclose level q.bid_price then some q.bid_size else none }

/-- Final phase of `_update_quote`: run the placement loop over
`range(row_count)` against ladder `pl` and dataframe `df` and advance
`quotes_row`.  The loop indexes both `pl` and `df` at every `i < row_count`,
so it raises unless both have at least `row_count` entries; in every state the
constructor and the updates produce, both have exactly `row_count` entries,
which the guard requires. -/
def quoteFinish (md : MarketData) (q : Quote) (pl : List ℚ) (df : List Row) :
    Option MarketData :=
  if pl.length = md.config.row_count ∧ df.length = md.config.row_count then
    some { md with
      price_ladder := some pl
      price_ladder_df := (pl.zip df).map (fun p => applyQuoteRow q p.1 p.2)
      quotes_row := md.quotes_row + 1 }
  else none

/-- `MarketData._update_quote` (lines 134–172): fetch the quote at
`quotes_row` (raises if out of bounds), re-anchor the ladder when the
re-anchor test fires, then place the quote sizes and advance the cursor. -/
def update_quote (md : MarketData) : Option MarketData :=
  match md.quotes_df[md.quotes_row]? with
  | none => none
  | some q =>
    match reanchorCheck md q with
    | none => none
    | some true =>
      quoteFinish md q
        (anchorLevels (reanchorTop md.config q) md.config.tick_size
          md.config.row_count)
        (anchoredDf (anchorLevels (reanchorTop md.config q) md.config.tick_size
          md.config.row_count))
    | some false =>
      match md.price_ladder with
      | none => none
      | some pl => quoteFinish md q pl md.price_ladder_df

/-- One iteration of the trade loop (lines 180–197) at level `level`: when
`isclose(level, price)`, classify against the quote cells — a non-empty
column 1 aggregates into column 0 and clears column 4; otherwise a non-empty
column 3 aggregates into column 4 and clears column 0; with both empty the
row is left untouched.  When the level does not match, columns 0 and 4 are
cleared.  (`volume + cell.getD 0` renders the source's conditional
`volume += int(cell)`: it adds the existing aggregate when present.) -/
def applyTradeRow (t : Trade) (level : ℚ) (r : Row) : Row :=
  if isclose level t.price then
    if r.col1.isSome then
      { r with col0 := some (t.volume + r.col0.getD 0), col4 := none }
    else if r.col3.isSome then
      { r with col0 := none, col4 := some (t.volume + r.col4.getD 0) }
    else r
  else { r with col0 := none, col4 := none }

/-- `MarketData._update_trade` (lines 174–201): when no quote has been
processed yet (`quotes_row == 0`) the loop is skipped and only `trades_row`
advances; otherwise the loop indexes `_price_ladder` (raises when unset) and
reads the trade at `trades_row` (raises when out of bounds), then advances
the cursor.  As in `quoteFinish`, the loop requires ladder and dataframe to
carry `row_count` entries. -/
def update_trade (md : MarketData) : Option MarketData :=
  if md.quotes_row = 0 then
    some { md with trades_row := md.trades_row + 1 }
  else
    match md.price_ladder, md.trades_df[md.trades_row]? with
    | some pl, some t =>
      if pl.length = md.config.row_count ∧
          md.price_ladder_df.length = md.config.row_count then
        some { md with
          price_ladder_df :=
            (pl.zip md.price_ladder_df).map (fun p => applyTradeRow t p.1 p.2)
          trades_row := md.trades_row + 1 }
      else none
    | _, _ => none

/-- What one call of `get_next_price_ladder_df` returned: `None` (both
streams exhausted), the updated dataframe, or a raised exception. -/
inductive StepOut where
  | terminal : StepOut
  | snapshot : StepOut
  | error : StepOut
deriving DecidableEq, Repr

/-- `MarketData.get_next_price_ladder_df` (lines 92–115), returning what the
call produced together with the state after the call.  The Python guard
`row > len(df.index) - 1` over integers is exactly `row ≥ length`. -/
def get_next_price_ladder_df (md : MarketData) : StepOut × MarketData :=
  if md.quotes_row ≥ md.quotes_df.length ∧
      md.trades_row ≥ md.trades_df.length then
    (StepOut.terminal, md)
  else if md.quotes_row ≥ md.quotes_df.length then
    match update_trade md with
    | some md' => (StepOut.snapshot, md')
    | none => (StepOut.error, md)
  else if md.trades_row ≥ md.trades_df.length then
    match update_quote md with
    | some md' => (StepOut.snapshot, md')
    | none => (StepOut.error, md)
  else
    match md.quotes_df[md.quotes_row]?, md.trades_df[md.trades_row]? with
    | some q, some t =>
      if q.time_value < t.time_value then
        match update_quote md with
        | some md' => (StepOut.snapshot, md')
        | none => (StepOut.error, md)
      else
        match update_trade md with
        | some md' => (StepOut.snapshot, md')
        | none => (StepOut.error, md)
    | _, _ => (StepOut.error, md)

/-- `MarketData.get_price_ladder_time_elapsed` (lines 117–132): `0.0` when
both streams are exhausted; otherwise
`min(quotes[quotes_row].ts, trades[trades_row].ts) - min(quotes[0].ts,
trades[0].ts)`, raising (`none`) when any of the four lookups misses. -/
def get_price_ladder_time_elapsed (md : MarketData) : Option ℚ :=
  if md.quotes_row ≥ md.quotes_df.length ∧
      md.trades_row ≥ md.trades_df.length then
    some 0
  else
    match md.quotes_df[0]?, md.trades_df[0]?,
        md.quotes_df[md.quotes_row]?, md.trades_df[md.trades_row]? with
    | some q0, some t0, some qc, some tc =>
      some (min qc.time_value tc.time_value -
            min q0.time_value t0.time_value)
    | _, _, _, _ => none

/-- The states reachable from `md0` by repeated calls of
`get_next_price_ladder_df`. -/
inductive Reachable (md0 : MarketData) : MarketData → Prop
  | refl : Reachable md0 md0
  | tail {md : MarketData} : Reachable md0 md →
      Reachable md0 (get_next_price_ladder_df md).2

/-- The timestamp of the next unconsumed record (the one
`get_next_price_ladder_df` would apply): the minimum over the records at the
two cursors, the remaining one when a stream is exhausted, `none` at the
terminal state. -/
def nextEventTs (md : MarketData) : Option ℚ :=
  match md.quotes_df[md.quotes_row]?, md.trades_df[md.trades_row]? with
  | none, none => none
  | some q, none => some q.time_value
  | none, some t => some t.time_value
  | some q, some t => some (min q.time_value t.time_value)

/-- The quote stream's contract: timestamps are non-decreasing. -/
def QuotesSorted (l : List Quote) : Prop :=
  l.Pairwise (fun a b => a.time_value ≤ b.time_value)

/-- The trade stream's contract: timestamps are non-decreasing. -/
def TradesSorted (l : List Trade) : Prop :=
  l.Pairwise (fun a b => a.time_value ≤ b.time_value)

/-! ### Concrete engine runs used as test inputs -/

/-- A state whose next quote and next trade carry the same timestamp. -/
def mdTie : MarketData :=
  init { row_count := 5, tick_size := 1 }
    [{ time_value := 5, bid_price := 100, bid_size := 10,
       ask_price := 101, ask_size := 5 }]
    [{ time_value := 5, price := 100, volume := 4 }]

/-- Input for the aggregation-reset scenario: one quote anchors the grid and
posts a bid at 99, a trade at 99 aggregates against it, a second quote moves
the bid away from 99, then a second trade arrives at 99 while neither quote
cell at that level is occupied. -/
def mdA : MarketData :=
  init { row_count := 5, tick_size := 1 }
    [{ time_value := 1, bid_price := 99, bid_size := 10,
       ask_price := 100, ask_size := 5 },
     { time_value := 3, bid_price := 100, bid_size := 7,
       ask_price := 101, ask_size := 6 }]
    [{ time_value := 2, price := 99, volume := 3 },
     { time_value := 4, price := 99, volume := 5 }]

/-- `mdA` after the first quote. -/
def sA1 : MarketData := (get_next_price_ladder_df mdA).2

/-- `mdA` after quote, trade. -/
def sA2 : MarketData := (get_next_price_ladder_df sA1).2

/-- `mdA` after quote, trade, quote: level 99 now has an aggregate in
column 0 but empty bid and ask cells. -/
def sA3 : MarketData := (get_next_price_ladder_df sA2).2

/-- Input for the tolerance scenario: tick size 1/4, a one-row grid anchored
at 100, a trade exactly at 100, then a trade at 100 - 1/16 — within half a
tick of the level but far outside `isclose` tolerance. -/
def mdC2 : MarketData :=
  init { row_count := 1, tick_size := 1/4 }
    [{ time_value := 1, bid_price := 399/4, bid_size := 8,
       ask_price := 100, ask_size := 5 }]
    [{ time_value := 2, price := 100, volume := 3 },
     { time_value := 3, price := 100 - 1/16, volume := 2 }]

/-- `mdC2` after the quote. -/
def sC2a : MarketData := (get_next_price_ladder_df mdC2).2

/-- `mdC2` after quote and the trade at 100 (column 4 holds 3). -/
def sC2b : MarketData := (get_next_price_ladder_df sC2a).2

/-- `mdC2` after both trades. -/
def sC2c : MarketData := (get_next_price_ladder_df sC2b).2

/-- Input for the out-of-order scenario: no quotes, and a trade stream whose
second record's timestamp (3) is smaller than its first's (5). -/
def mdC5 : MarketData :=
  init { row_count := 5, tick_size := 1/100 }
    []
    [{ time_value := 5, price := 100, volume := 1 },
     { time_value := 3, price := 100, volume := 2 }]

/-- `mdC5` after one step: the record with timestamp 5 has been consumed and
the next unconsumed record is the out-of-order one. -/
def sC5 : MarketData := (get_next_price_ladder_df mdC5).2

/-- Input for the elapsed-time scenario: one quote, one trade. -/
def mdC6 : MarketData :=
  init { row_count := 5, tick_size := 1/100 }
    [{ time_value := 1, bid_price := 100, bid_size := 10,
       ask_price := 100 + 1/100, ask_size := 5 }]
    [{ time_value := 2, price := 100, volume := 3 }]

/-- `mdC6` after one step: the quote stream is exhausted, the trade stream is
not. -/
def sC6 : MarketData := (get_next_price_ladder_df mdC6).2

/-- Row 3 of the `mdA` run from `sA2` on: aggregate 3 in column 0, all quote
cells empty. -/
def aggRow99 : Row :=
  { col0 := some 3, col1 := none, col2 := some 99, col3 := none,
    col4 := none }

/-- Row 0 of the `mdC2` run after the trade at 100: ask size 5 posted,
aggregate 3 in column 4. -/
def rowC2b : Row :=
  { col0 := none, col1 := none, col2 := some 100, col3 := some 5,
    col4 := some 3 }

/-- Row 0 of the `mdC2` run after the trade at `100 - 1/16`: the aggregate
in column 4 has been cleared. -/
def rowC2c : Row :=
  { col0 := none, col1 := none, col2 := some 100, col3 := some 5,
    col4 := none }

/-- Two states that agree on the configuration, the grid, both cursors, both
stream lengths, and every record at or after the cursors — they may differ
only in the already-consumed prefixes of the two record streams. -/
structure SamePending (md md₂ : MarketData) : Prop where
  config_eq : md₂.config = md.config
  ladder_eq : md₂.price_ladder = md.price_ladder
  df_eq : md₂.price_ladder_df = md.price_ladder_df
  quotes_row_eq : md₂.quotes_row = md.quotes_row
  trades_row_eq : md₂.trades_row = md.trades_row
  quotes_len_eq : md₂.quotes_df.length = md.quotes_df.length
  trades_len_eq : md₂.trades_df.length = md.trades_df.length
  quotes_pending : ∀ i : ℕ, md.quotes_row ≤ i →
    md₂.quotes_df[i]? = md.quotes_df[i]?
  trades_pending : ∀ i : ℕ, md.trades_row ≤ i →
    md₂.trades_df[i]? = md.trades_df[i]?

/-- `sC5` with its already-consumed first trade record replaced by one with
timestamp 1000: the same pending records, but a maximally out-of-order
history relative to the record now at the cursor (timestamp 3). -/
def sC5b : MarketData :=
  { sC5 with trades_df := [⟨1000, 100, 1⟩, ⟨3, 100, 2⟩] }

/-! ### Helper lemmas -/

lemma zip_getElem? {α β : Type} {l1 : List α} {l2 : List β} {i : ℕ} {a : α}
    {b : β} (h1 : l1[i]? = some a) (h2 : l2[i]? = some b) :
    (l1.zip l2)[i]? = some (a, b) := by
  induction l1 generalizing l2 i with
  | nil => simp at h1
  | cons x xs ih =>
    cases l2 with
    | nil => simp at h2
    | cons y ys =>
      cases i with
      | zero =>
        simp only [List.getElem?_cons_zero, Option.some.injEq] at h1 h2
        simp [List.zip_cons_cons, h1, h2]
      | succ n =>
        simp only [List.getElem?_cons_succ] at h1 h2
        simpa [List.zip_cons_cons] using ih h1 h2

lemma mem_zipMap {α β γ : Type} {f : α → β → γ} {l1 : List α} {l2 : List β}
    {c : γ} (h : c ∈ (l1.zip l2).map (fun p => f p.1 p.2)) :
    ∃ a b, a ∈ l1 ∧ b ∈ l2 ∧ c = f a b := by
  rcases List.mem_map.mp h with ⟨⟨a, b⟩, hab, rfl⟩
  exact ⟨a, b, (List.of_mem_zip hab).1, (List.of_mem_zip hab).2, rfl⟩

lemma quoteFinish_some {md : MarketData} {q : Quote} {pl : List ℚ}
    {df : List Row} {md' : MarketData}
    (h : quoteFinish md q pl df = some md') :
    pl.length = md.config.row_count ∧ df.length = md.config.row_count ∧
    md' = { md with
      price_ladder := some pl
      price_ladder_df := (pl.zip df).map (fun p => applyQuoteRow q p.1 p.2)
      quotes_row := md.quotes_row + 1 } := by
  unfold quoteFinish at h
  split at h
  case isTrue hc => exact ⟨hc.1, hc.2, (Option.some.inj h).symm⟩
  case isFalse => exact absurd h (by simp)

lemma update_quote_some {md md' : MarketData}
    (h : update_quote md = some md') :
    ∃ q, md.quotes_df[md.quotes_row]? = some q ∧
      ((reanchorCheck md q = some true ∧
        quoteFinish md q
          (anchorLevels (reanchorTop md.config q) md.config.tick_size
            md.config.row_count)
          (anchoredDf (anchorLevels (reanchorTop md.config q)
            md.config.tick_size md.config.row_count)) = some md') ∨
       (∃ pl, reanchorCheck md q = some false ∧ md.price_ladder = some pl ∧
        quoteFinish md q pl md.price_ladder_df = some md')) := by
  unfold update_quote at h
  split at h
  case h_1 => exact absurd h (by simp)
  case h_2 q hq =>
    split at h
    case h_1 => exact absurd h (by simp)
    case h_2 hcheck => exact ⟨q, hq, Or.inl ⟨hcheck, h⟩⟩
    case h_3 hcheck =>
      split at h
      case h_1 => exact absurd h (by simp)
      case h_2 pl hpl => exact ⟨q, hq, Or.inr ⟨pl, hcheck, hpl, h⟩⟩

lemma update_trade_some {md md' : MarketData}
    (h : update_trade md = some md') :
    (md.quotes_row = 0 ∧ md' = { md with trades_row := md.trades_row + 1 }) ∨
    (∃ pl t, md.quotes_row ≠ 0 ∧ md.price_ladder = some pl ∧
      md.trades_df[md.trades_row]? = some t ∧
      pl.length = md.config.row_count ∧
      md.price_ladder_df.length = md.config.row_count ∧
      md' = { md with
        price_ladder_df :=
          (pl.zip md.price_ladder_df).map (fun p => applyTradeRow t p.1 p.2)
        trades_row := md.trades_row + 1 }) := by
  unfold update_trade at h
  split at h
  case isTrue h0 => exact Or.inl ⟨h0, (Option.some.inj h).symm⟩
  case isFalse h0 =>
    split at h
    case h_1 pl t hpl ht =>
      split at h
      case isTrue hc =>
        exact Or.inr ⟨pl, t, h0, hpl, ht, hc.1, hc.2, (Option.some.inj h).symm⟩
      case isFalse => exact absurd h (by simp)
    case h_2 => exact absurd h (by simp)

lemma applyQuoteRow_col0 (q : Quote) (level : ℚ) (r : Row) :
    (applyQuoteRow q level r).col0 = r.col0 := rfl

lemma applyQuoteRow_col2 (q : Quote) (level : ℚ) (r : Row) :
    (applyQuoteRow q level r).col2 = r.col2 := rfl

lemma applyQuoteRow_col4 (q : Quote) (level : ℚ) (r : Row) :
    (applyQuoteRow q level r).col4 = r.col4 := rfl

lemma applyTradeRow_col1 (t : Trade) (level : ℚ) (r : Row) :
    (applyTradeRow t level r).col1 = r.col1 := by
  unfold applyTradeRow
  split
  · split
    · rfl
    · split <;> rfl
  · rfl

lemma applyTradeRow_col2 (t : Trade) (level : ℚ) (r : Row) :
    (applyTradeRow t level r).col2 = r.col2 := by
  unfold applyTradeRow
  split
  · split
    · rfl
    · split <;> rfl
  · rfl

lemma applyTradeRow_col3 (t : Trade) (level : ℚ) (r : Row) :
    (applyTradeRow t level r).col3 = r.col3 := by
  unfold applyTradeRow
  split
  · split
    · rfl
    · split <;> rfl
  · rfl

lemma applyTradeRow_sided (t : Trade) (level : ℚ) (r : Row)
    (h : r.col0 = none ∨ r.col4 = none) :
    (applyTradeRow t level r).col0 = none ∨
    (applyTradeRow t level r).col4 = none := by
  unfold applyTradeRow
  split
  · split
    · exact Or.inr rfl
    · split
      · exact Or.inl rfl
      · exact h
  · exact Or.inl rfl

lemma update_quote_frame {md md' : MarketData}
    (h : update_quote md = some md') :
    md'.config = md.config ∧ md'.quotes_row = md.quotes_row + 1 ∧
    md'.trades_row = md.trades_row ∧ md'.quotes_df = md.quotes_df ∧
    md'.trades_df = md.trades_df := by
  rcases update_quote_some h with ⟨q, _, ⟨_, hfin⟩ | ⟨pl, _, _, hfin⟩⟩ <;>
    rcases quoteFinish_some hfin with ⟨_, _, rfl⟩ <;>
    exact ⟨rfl, rfl, rfl, rfl, rfl⟩

lemma update_trade_frame {md md' : MarketData}
    (h : update_trade md = some md') :
    md'.config = md.config ∧ md'.price_ladder = md.price_ladder ∧
    md'.quotes_row = md.quotes_row ∧ md'.trades_row = md.trades_row + 1 ∧
    md'.quotes_df = md.quotes_df ∧ md'.trades_df = md.trades_df := by
  rcases update_trade_some h with ⟨_, rfl⟩ | ⟨pl, t, _, _, _, _, _, rfl⟩ <;>
    exact ⟨rfl, rfl, rfl, rfl, rfl, rfl⟩

lemma step_state (md : MarketData) :
    (get_next_price_ladder_df md).2 = md ∨
    (∃ md', update_quote md = some md' ∧
      (get_next_price_ladder_df md).2 = md') ∨
    (∃ md', update_trade md = some md' ∧
      (get_next_price_ladder_df md).2 = md') := by
  unfold get_next_price_ladder_df
  split
  · exact Or.inl rfl
  split
  · split
    case h_1 md' hmd' => exact Or.inr (Or.inr ⟨md', hmd', rfl⟩)
    case h_2 => exact Or.inl rfl
  split
  · split
    case h_1 md' hmd' => exact Or.inr (Or.inl ⟨md', hmd', rfl⟩)
    case h_2 => exact Or.inl rfl
  split
  case h_1 q t hq ht =>
    split
    · split
      case h_1 md' hmd' => exact Or.inr (Or.inl ⟨md', hmd', rfl⟩)
      case h_2 => exact Or.inl rfl
    · split
      case h_1 md' hmd' => exact Or.inr (Or.inr ⟨md', hmd', rfl⟩)
      case h_2 => exact Or.inl rfl
  case h_2 => exact Or.inl rfl

lemma update_quote_sided {md md' : MarketData}
    (h : update_quote md = some md')
    (hinv : ∀ r ∈ md.price_ladder_df, r.col0 = none ∨ r.col4 = none) :
    ∀ r ∈ md'.price_ladder_df, r.col0 = none ∨ r.col4 = none := by
  rcases update_quote_some h with ⟨q, _, ⟨_, hfin⟩ | ⟨pl, _, _, hfin⟩⟩ <;>
      rcases quoteFinish_some hfin with ⟨_, _, rfl⟩ <;>
      intro r hr <;>
      rcases mem_zipMap hr with ⟨l, r0, _, hr0, rfl⟩ <;>
      rw [applyQuoteRow_col0, applyQuoteRow_col4]
  · rcases List.mem_map.mp hr0 with ⟨_, _, rfl⟩
    exact Or.inl rfl
  · exact hinv r0 hr0

lemma update_trade_sided {md md' : MarketData}
    (h : update_trade md = some md')
    (hinv : ∀ r ∈ md.price_ladder_df, r.col0 = none ∨ r.col4 = none) :
    ∀ r ∈ md'.price_ladder_df, r.col0 = none ∨ r.col4 = none := by
  rcases update_trade_some h with ⟨_, rfl⟩ | ⟨pl, t, _, _, _, _, _, rfl⟩
  · exact hinv
  · intro r hr
    rcases mem_zipMap hr with ⟨l, r0, _, hr0, rfl⟩
    exact applyTradeRow_sided t l r0 (hinv r0 hr0)

lemma step_sided (md : MarketData)
    (hinv : ∀ r ∈ md.price_ladder_df, r.col0 = none ∨ r.col4 = none) :
    ∀ r ∈ (get_next_price_ladder_df md).2.price_ladder_df,
      r.col0 = none ∨ r.col4 = none := by
  rcases step_state md with heq | ⟨md', hu, heq⟩ | ⟨md', hu, heq⟩
  · rw [heq]; exact hinv
  · rw [heq]; exact update_quote_sided hu hinv
  · rw [heq]; exact update_trade_sided hu hinv

/-! ### The claims -/

/-- C8: in every state reachable by any sequence of
`get_next_price_ladder_df` calls from a freshly constructed engine, every
row of the grid has at most one of column 0 (aggregated buy-side volume) and
column 4 (aggregated sell-side volume) non-empty. -/
theorem claim8 (cfg : Config) (quotes : List Quote) (trades : List Trade)
    (md : MarketData) (h : Reachable (init cfg quotes trades) md) :
    ∀ r ∈ md.price_ladder_df, r.col0 = none ∨ r.col4 = none := by
  induction h with
  | refl =>
    intro r hr
    rcases (List.mem_replicate.mp hr).2 with rfl
    exact Or.inl rfl
  | tail _ ih => exact step_sided _ ih

/-- Witness for C8: the invariant instantiated at the state after two steps
of the `mdA` run, on the concrete row holding the volume aggregate. -/
theorem claim8_witness :
    ({ col0 := some 3, col1 := some 10, col2 := some 99, col3 := none,
       col4 := none } : Row).col0 = none ∨
    ({ col0 := some 3, col1 := some 10, col2 := some 99, col3 := none,
       col4 := none } : Row).col4 = none := by
  have h := claim8 { row_count := 5, tick_size := 1 } mdA.quotes_df
    mdA.trades_df sA2 (Reachable.tail (Reachable.tail Reachable.refl))
  exact h _ (by with_unfolding_all decide)

/-- C9: a trade applied while no quote has been consumed yet
(`quotes_row = 0`) leaves the grid and every display cell unchanged; the
only state change is that the trades cursor advances by one. -/
theorem claim9 (md md' : MarketData) (h0 : md.quotes_row = 0)
    (h : update_trade md = some md') :
    md' = { md with trades_row := md.trades_row + 1 } := by
  unfold update_trade at h
  rw [if_pos h0] at h
  exact (Option.some.inj h).symm

/-- Witness for C9: the first trade of the `mdC5` run is consumed before any
quote; the state changes only by the cursor. -/
theorem claim9_witness :
    (update_trade mdC5).getD mdC5 =
      { mdC5 with trades_row := mdC5.trades_row + 1 } :=
  claim9 mdC5 ((update_trade mdC5).getD mdC5) rfl (by with_unfolding_all decide)

/-- C10: a trade applied in any state leaves columns 1 (bid size),
2 (price label) and 3 (ask size) of every row unchanged, leaves the set of
price levels unchanged (a trade never re-anchors), and leaves the quotes
cursor and both streams unchanged; only columns 0/4 and the trades cursor
may change. -/
theorem claim10 (md md' : MarketData) (h : update_trade md = some md') :
    md'.config = md.config ∧
    md'.price_ladder = md.price_ladder ∧
    md'.quotes_row = md.quotes_row ∧
    md'.trades_row = md.trades_row + 1 ∧
    md'.quotes_df = md.quotes_df ∧
    md'.trades_df = md.trades_df ∧
    md'.price_ladder_df.length = md.price_ladder_df.length ∧
    ∀ i : ℕ,
      (md'.price_ladder_df[i]?).map Row.col1 =
        (md.price_ladder_df[i]?).map Row.col1 ∧
      (md'.price_ladder_df[i]?).map Row.col2 =
        (md.price_ladder_df[i]?).map Row.col2 ∧
      (md'.price_ladder_df[i]?).map Row.col3 =
        (md.price_ladder_df[i]?).map Row.col3 := by
  rcases update_trade_some h with ⟨_, rfl⟩ |
    ⟨pl, t, _, _, _, hpllen, hdflen, rfl⟩
  · exact ⟨rfl, rfl, rfl, rfl, rfl, rfl, rfl, fun i => ⟨rfl, rfl, rfl⟩⟩
  · refine ⟨rfl, rfl, rfl, rfl, rfl, rfl, ?_, ?_⟩
    · simp [List.length_zip, hpllen, hdflen]
    · intro i
      by_cases hi : i < md.price_ladder_df.length
      · have hpl : pl[i]? = some (pl.get ⟨i, by omega⟩) :=
          List.getElem?_eq_getElem (by omega)
        have hdf : md.price_ladder_df[i]? =
            some (md.price_ladder_df.get ⟨i, hi⟩) :=
          List.getElem?_eq_getElem hi
        rw [List.getElem?_map, zip_getElem? hpl hdf, hdf]
        exact ⟨by simp [applyTradeRow_col1],
               by simp [applyTradeRow_col2],
               by simp [applyTradeRow_col3]⟩
      · have h1 : ((pl.zip md.price_ladder_df).map
            (fun p => applyTradeRow t p.1 p.2))[i]? = none :=
          List.getElem?_eq_none (by
            simp only [List.length_map, List.length_zip, hpllen, hdflen]
            omega)
        have h2 : md.price_ladder_df[i]? = none :=
          List.getElem?_eq_none (by omega)
        simp [h1, h2]

/-- Witness for C10: the trade consumed between `sA1` and `sA2` preserves
columns 1–3 of every row. -/
theorem claim10_witness :
    sA2.price_ladder = sA1.price_ladder ∧
    (sA2.price_ladder_df[3]?).map Row.col1 =
      (sA1.price_ladder_df[3]?).map Row.col1 := by
  have h := claim10 sA1 sA2 (by with_unfolding_all decide)
  exact ⟨h.2.1, (h.2.2.2.2.2.2.2 3).1⟩

/-- C7: `get_next_price_ladder_df` returns `None` exactly when both cursors
equal their stream lengths, the terminal call leaves the state unchanged,
and a repeated call returns `None` again on the unchanged state. -/
theorem claim7 (md : MarketData)
    (h1 : md.quotes_row ≤ md.quotes_df.length)
    (h2 : md.trades_row ≤ md.trades_df.length) :
    ((get_next_price_ladder_df md).1 = StepOut.terminal ↔
      (md.quotes_row = md.quotes_df.length ∧
       md.trades_row = md.trades_df.length)) ∧
    ((get_next_price_ladder_df md).1 = StepOut.terminal →
      (get_next_price_ladder_df md).2 = md ∧
      get_next_price_ladder_df ((get_next_price_ladder_df md).2) =
        (StepOut.terminal, md)) := by
  by_cases hex : md.quotes_row ≥ md.quotes_df.length ∧
      md.trades_row ≥ md.trades_df.length
  · have hstep : get_next_price_ladder_df md = (StepOut.terminal, md) := by
      unfold get_next_price_ladder_df
      rw [if_pos hex]
    refine ⟨⟨fun _ => ⟨by omega, by omega⟩, fun _ => by rw [hstep]⟩, ?_⟩
    intro _
    rw [hstep]
    exact ⟨rfl, by rw [hstep]⟩
  · have hnt : (get_next_price_ladder_df md).1 ≠ StepOut.terminal := by
      unfold get_next_price_ladder_df
      rw [if_neg hex]
      split
      · split <;> simp
      split
      · split <;> simp
      split
      · split
        · split <;> simp
        · split <;> simp
      · simp
    refine ⟨⟨fun ht => absurd ht hnt, fun he => absurd ⟨he.1.ge, he.2.ge⟩ hex⟩,
      fun ht => absurd ht hnt⟩

/-- Witness for C7: a constructed engine with both streams empty is terminal
from the start, returns `None`, and keeps returning `None` unchanged. -/
theorem claim7_witness :
    (get_next_price_ladder_df
      (init { row_count := 1, tick_size := 1 } [] [])).1 =
        StepOut.terminal ∧
    get_next_price_ladder_df
        ((get_next_price_ladder_df
          (init { row_count := 1, tick_size := 1 } [] [])).2) =
      (StepOut.terminal, init { row_count := 1, tick_size := 1 } [] []) := by
  have h := claim7 (init { row_count := 1, tick_size := 1 } [] [])
    (by decide) (by decide)
  have ht := h.1.mpr (by decide)
  exact ⟨ht, (h.2 ht).2⟩

/-- Counterexample to C5: in the `mdC5` run the second trade record's
timestamp (3) is smaller than the previously consumed record's (5), yet the
engine raises nothing: the call succeeds and the record is consumed. -/
theorem claim5_counterexample :
    (sC5.trades_df[0]?).map Trade.time_value = some 5 ∧
    (sC5.trades_df[1]?).map Trade.time_value = some 3 ∧
    sC5.trades_row = 1 ∧
    (get_next_price_ladder_df sC5).1 = StepOut.snapshot ∧
    (get_next_price_ladder_df sC5).2.trades_row = 2 := by
  with_unfolding_all decide

/-- C6: `get_price_ladder_time_elapsed` returns 0 when both streams are
exhausted and the min-of-cursors minus min-of-first-records difference when
both cursors are strictly inside their streams; but when one stream is
exhausted while the other is not (which includes an empty stream), the
lookup of the missing record raises instead of returning a value. -/
theorem claim6 (md : MarketData) :
    ((md.quotes_row ≥ md.quotes_df.length ∧
      md.trades_row ≥ md.trades_df.length) →
      get_price_ladder_time_elapsed md = some 0) ∧
    (∀ q0 t0 qc tc, md.quotes_df[0]? = some q0 →
      md.trades_df[0]? = some t0 →
      md.quotes_df[md.quotes_row]? = some qc →
      md.trades_df[md.trades_row]? = some tc →
      get_price_ladder_time_elapsed md =
        some (min qc.time_value tc.time_value -
          min q0.time_value t0.time_value)) ∧
    (¬(md.quotes_row ≥ md.quotes_df.length ∧
        md.trades_row ≥ md.trades_df.length) →
      (md.quotes_row ≥ md.quotes_df.length ∨
        md.trades_row ≥ md.trades_df.length) →
      get_price_ladder_time_elapsed md = none) := by
  refine ⟨?_, ?_, ?_⟩
  · intro hex
    unfold get_price_ladder_time_elapsed
    rw [if_pos hex]
  · intro q0 t0 qc tc h0 h1 h2 h3
    have hq : md.quotes_row < md.quotes_df.length :=
      (List.getElem?_eq_some.mp h2).1
    unfold get_price_ladder_time_elapsed
    rw [if_neg (by omega)]
    rw [h0, h1, h2, h3]
  · intro hne hexh
    unfold get_price_ladder_time_elapsed
    rw [if_neg hne]
    rcases hexh with hq | ht
    · have hc : md.quotes_df[md.quotes_row]? = none :=
        List.getElem?_eq_none hq
      cases h0 : md.quotes_df[0]? <;> cases h1 : md.trades_df[0]? <;>
        cases h2 : md.trades_df[md.trades_row]? <;> simp [hc, h0, h1, h2]
    · have hc : md.trades_df[md.trades_row]? = none :=
        List.getElem?_eq_none ht
      cases h0 : md.quotes_df[0]? <;> cases h1 : md.trades_df[0]? <;>
        cases h2 : md.quotes_df[md.quotes_row]? <;> simp [hc, h0, h1, h2]

/-- Counterexample to C6: in state `sC6` the quote stream is exhausted while
the trade stream is not; the claim says the elapsed time is still returned,
but the lookup of the missing quote record raises (`none`). -/
theorem claim6_counterexample :
    sC6.quotes_row = sC6.quotes_df.length ∧
    sC6.trades_row < sC6.trades_df.length ∧
    get_price_ladder_time_elapsed sC6 = none := by
  with_unfolding_all decide

/-- Witness for C6: the formula case applied to state `sA1`, whose cursors
are both strictly inside their streams. -/
theorem claim6_witness :
    get_price_ladder_time_elapsed sA1 =
      some (min (3 : ℚ) 2 - min (1 : ℚ) 2) :=
  (claim6 sA1).2.1
    { time_value := 1, bid_price := 99, bid_size := 10,
      ask_price := 100, ask_size := 5 }
    { time_value := 2, price := 99, volume := 3 }
    { time_value := 3, bid_price := 100, bid_size := 7,
      ask_price := 101, ask_size := 6 }
    { time_value := 2, price := 99, volume := 3 }
    (by with_unfolding_all decide) (by with_unfolding_all decide)
    (by with_unfolding_all decide) (by with_unfolding_all decide)

/-- C4 (amended): when a trade, applied after at least one quote, matches a
row whose bid-size cell (column 1) and ask-size cell (column 3) are both
empty, that row is left completely unchanged — in particular the
aggregated-trade columns 0 and 4 are preserved, not cleared. -/
theorem claim4 (md md' : MarketData) (t : Trade) (pl : List ℚ) (i : ℕ)
    (level : ℚ) (r : Row)
    (h0 : md.quotes_row ≠ 0)
    (hpl : md.price_ladder = some pl)
    (ht : md.trades_df[md.trades_row]? = some t)
    (hstep : update_trade md = some md')
    (hlev : pl[i]? = some level)
    (hr : md.price_ladder_df[i]? = some r)
    (hmatch : isclose level t.price = true)
    (h1 : r.col1 = none) (h3 : r.col3 = none) :
    md'.price_ladder_df[i]? = some r := by
  rcases update_trade_some hstep with ⟨hz, _⟩ |
    ⟨pl', t', _, hpl', ht', hlen, hdlen, rfl⟩
  · exact absurd hz h0
  · rw [hpl] at hpl'
    cases Option.some.inj hpl'
    rw [ht] at ht'
    cases Option.some.inj ht'
    show ((pl.zip md.price_ladder_df).map
      (fun p => applyTradeRow t p.1 p.2))[i]? = some r
    rw [List.getElem?_map, zip_getElem? hlev hr]
    have : applyTradeRow t level r = r := by
      unfold applyTradeRow
      rw [if_pos hmatch]
      simp [h1, h3]
    simp [this]

/-- Counterexample to C4: in state `sA3` the next trade (price 99) matches
row 3, whose bid and ask cells are both empty while column 0 holds the
aggregate 3; the claim says applying the trade clears columns 0 and 4, but
the row is left unchanged — column 0 still holds 3 afterwards. -/
theorem claim4_counterexample :
    sA3.quotes_row ≠ 0 ∧
    sA3.trades_df[sA3.trades_row]? =
      some { time_value := 4, price := 99, volume := 5 } ∧
    (sA3.price_ladder).map (fun pl => pl[3]?) = some (some 99) ∧
    isclose 99 99 = true ∧
    sA3.price_ladder_df[3]? = some aggRow99 ∧
    (get_next_price_ladder_df sA3).2.price_ladder_df[3]? =
      some aggRow99 := by
  with_unfolding_all decide

/-- Witness for C4: the amended statement applied to the concrete state
`sA3` at row 3. -/
theorem claim4_witness :
    ((update_trade sA3).getD sA3).price_ladder_df[3]? = some aggRow99 :=
  claim4 sA3 ((update_trade sA3).getD sA3)
    { time_value := 4, price := 99, volume := 5 }
    [102, 101, 100, 99, 98] 3 99 aggRow99
    (by with_unfolding_all decide) (by with_unfolding_all decide)
    (by with_unfolding_all decide) (by with_unfolding_all decide)
    (by with_unfolding_all decide) (by with_unfolding_all decide)
    (by with_unfolding_all decide) (by with_unfolding_all decide)
    (by with_unfolding_all decide)

lemma fdiv_two_floor (x : ℤ) : Int.fdiv x 2 = ⌊((x : ℚ)) / 2⌋ := by
  rw [Int.fdiv_eq_ediv x (by norm_num)]
  have h := Rat.floor_intCast_div_natCast x 2
  simpa using h.symm

lemma reanchorTop_floor (cfg : Config) (q : Quote) :
    reanchorTop cfg q = q.ask_price + cfg.tick_size *
      ((⌊(((cfg.row_count : ℚ)) - 1) / 2⌋ : ℤ) : ℚ) := by
  unfold reanchorTop
  rw [fdiv_two_floor]
  have h : (((cfg.row_count : ℤ) - 1 : ℤ) : ℚ) = ((cfg.row_count : ℚ) - 1) := by
    push_cast
    ring
  rw [h]

/-- C3: a quote regenerates the grid exactly when no quote has been
processed yet, or its ask exceeds the current top level by more than half a
tick, or its bid is below the current bottom level by more than half a tick;
a regenerated grid has `row_count` levels descending by `tick_size` from
`ask_price + tick_size * floor((row_count - 1) / 2)`, and otherwise the
levels are unchanged. -/
theorem claim3 (md md' : MarketData) (q : Quote) (top bot : ℚ)
    (hq : md.quotes_df[md.quotes_row]? = some q)
    (hstep : update_quote md = some md')
    (hlad : md.quotes_row = 0 ∨
      (∃ pl, md.price_ladder = some pl ∧ pl.head? = some top ∧
        pl.getLast? = some bot)) :
    (reanchorCheck md q = some true ↔
      (md.quotes_row = 0 ∨
       top + (1/2) * md.config.tick_size < q.ask_price ∨
       q.bid_price < bot - (1/2) * md.config.tick_size)) ∧
    (reanchorCheck md q = some true →
      ∃ pl', md'.price_ladder = some pl' ∧
        pl'.length = md.config.row_count ∧
        ∀ i : ℕ, i < md.config.row_count →
          pl'[i]? = some ((q.ask_price + md.config.tick_size *
            ((⌊(((md.config.row_count : ℚ)) - 1) / 2⌋ : ℤ) : ℚ)) -
            (i : ℚ) * md.config.tick_size)) ∧
    (reanchorCheck md q = some false →
      md'.price_ladder = md.price_ladder) := by
  refine ⟨?_, ?_, ?_⟩
  · by_cases h0 : md.quotes_row = 0
    · refine iff_of_true ?_ (Or.inl h0)
      unfold reanchorCheck
      rw [if_pos h0]
    · rcases hlad with h | ⟨pl, hpl, htop, hbot⟩
      · exact absurd h h0
      unfold reanchorCheck
      rw [if_neg h0, hpl]
      simp only [htop, hbot]
      constructor
      · intro hs
        have h2 := Option.some.inj hs
        right
        simpa using h2
      · intro hs
        rcases hs with h | h | h
        · exact absurd h h0
        · rw [decide_eq_true h, Bool.true_or]
        · rw [decide_eq_true h, Bool.or_true]
  · intro hre
    rcases update_quote_some hstep with ⟨q', hq', hcase⟩
    rw [hq] at hq'
    cases Option.some.inj hq'
    rcases hcase with ⟨_, hfin⟩ | ⟨pl, hfalse, _, _⟩
    · rcases quoteFinish_some hfin with ⟨hlen, _, rfl⟩
      refine ⟨anchorLevels (reanchorTop md.config q) md.config.tick_size
        md.config.row_count, rfl, hlen, ?_⟩
      intro i hi
      unfold anchorLevels
      rw [List.getElem?_map, List.getElem?_range hi]
      rw [reanchorTop_floor]
      rfl
    · rw [hfalse] at hre
      exact absurd (Option.some.inj hre) (by simp)
  · intro hre
    rcases update_quote_some hstep with ⟨q', hq', hcase⟩
    rw [hq] at hq'
    cases Option.some.inj hq'
    rcases hcase with ⟨htrue, _⟩ | ⟨pl, _, hpl, hfin⟩
    · rw [htrue] at hre
      exact absurd (Option.some.inj hre) (by simp)
    · rcases quoteFinish_some hfin with ⟨_, _, rfl⟩
      exact hpl.symm

/-- Witness for C3: the first quote of the `mdA` run anchors the grid; its
top level is `100 + 1 * floor((5 - 1) / 2) = 102` and level 0 equals the
anchored top. -/
theorem claim3_witness :
    (sA1.price_ladder).map (fun pl => pl[0]?) =
      some (some ((100 + 1 * ((⌊(((5 : ℚ)) - 1) / 2⌋ : ℤ) : ℚ)) -
        (0 : ℚ) * 1)) := by
  have h := claim3 mdA sA1
    { time_value := 1, bid_price := 99, bid_size := 10,
      ask_price := 100, ask_size := 5 } 0 0
    (by with_unfolding_all decide) (by with_unfolding_all decide)
    (Or.inl rfl)
  obtain ⟨pl', hpl', hlen, hget⟩ := h.2.1 (h.1.mpr (Or.inl rfl))
  rw [hpl']
  simp only [Option.map_some']
  rw [hget 0 (by decide)]
  with_unfolding_all decide

lemma isclose_true_iff (a b : ℚ) :
    isclose a b = true ↔ |a - b| ≤ relTol * max |a| |b| := by
  simp [isclose]

lemma ite_isclose {α : Type} (a b : ℚ) (x y : α) :
    (if isclose a b then x else y) =
      (if |a - b| ≤ relTol * max |a| |b| then x else y) := by
  by_cases h : |a - b| ≤ relTol * max |a| |b|
  · rw [if_pos h, if_pos ((isclose_true_iff a b).mpr h)]
  · rw [if_neg h, if_neg (fun hc => h ((isclose_true_iff a b).mp hc))]

lemma quoteFinish_rows {md : MarketData} {q : Quote} {pl : List ℚ}
    {df : List Row} {md' : MarketData}
    (h : quoteFinish md q pl df = some md') :
    md'.price_ladder = some pl ∧
    pl.length = md.config.row_count ∧
    md'.price_ladder_df.length = md.config.row_count ∧
    ∀ (i : ℕ) (level : ℚ) (r : Row), pl[i]? = some level →
      md'.price_ladder_df[i]? = some r →
      ∃ r0, df[i]? = some r0 ∧ r = applyQuoteRow q level r0 := by
  rcases quoteFinish_some h with ⟨hlen, hdlen, rfl⟩
  refine ⟨rfl, hlen, by simp [List.length_zip, hlen, hdlen], ?_⟩
  intro i level r hlev hrow
  have hi : i < pl.length := (List.getElem?_eq_some.mp hlev).1
  have hdf : df[i]? = some (df.get ⟨i, by omega⟩) :=
    List.getElem?_eq_getElem (by omega)
  refine ⟨df.get ⟨i, by omega⟩, hdf, ?_⟩
  rw [List.getElem?_map, zip_getElem? hlev hdf] at hrow
  exact (Option.some.inj hrow).symm

/-- C2 (amended): the row matching used when placing quote sizes is
`math.isclose` with its default relative tolerance `1e-9` (and zero absolute
tolerance): after a quote is applied, row `i` carries the ask (resp. bid)
size exactly when `|level_i - ask_price| ≤ 1e-9 * max(|level_i|,
|ask_price|)` — not when the price is within half a tick of the level. -/
theorem claim2 (md md' : MarketData) (q : Quote)
    (hq : md.quotes_df[md.quotes_row]? = some q)
    (hstep : update_quote md = some md') :
    ∃ pl, md'.price_ladder = some pl ∧
      pl.length = md.config.row_count ∧
      md'.price_ladder_df.length = md.config.row_count ∧
      ∀ (i : ℕ) (level : ℚ) (r : Row), pl[i]? = some level →
        md'.price_ladder_df[i]? = some r →
        (r.col3 = if |level - q.ask_price| ≤ relTol * max |level| |q.ask_price|
          then some q.ask_size else none) ∧
        (r.col1 = if |level - q.bid_price| ≤ relTol * max |level| |q.bid_price|
          then some q.bid_size else none) := by
  rcases update_quote_some hstep with ⟨q', hq', hcase⟩
  rw [hq] at hq'
  cases Option.some.inj hq'
  have main : ∀ (pl : List ℚ) (df : List Row),
      quoteFinish md q pl df = some md' →
      ∃ pl2, md'.price_ladder = some pl2 ∧
        pl2.length = md.config.row_count ∧
        md'.price_ladder_df.length = md.config.row_count ∧
        ∀ (i : ℕ) (level : ℚ) (r : Row), pl2[i]? = some level →
          md'.price_ladder_df[i]? = some r →
          (r.col3 = if |level - q.ask_price| ≤
              relTol * max |level| |q.ask_price|
            then some q.ask_size else none) ∧
          (r.col1 = if |level - q.bid_price| ≤
              relTol * max |level| |q.bid_price|
            then some q.bid_size else none) := by
    intro pl df hfin
    rcases quoteFinish_rows hfin with ⟨hpl, hlen, hdlen, hrows⟩
    refine ⟨pl, hpl, hlen, hdlen, ?_⟩
    intro i level r hlev hrow
    obtain ⟨r0, _, rfl⟩ := hrows i level r hlev hrow
    constructor
    · show (if isclose level q.ask_price then some q.ask_size else none) = _
      rw [ite_isclose]
    · show (if isclose level q.bid_price then some q.bid_size else none) = _
      rw [ite_isclose]
  rcases hcase with ⟨_, hfin⟩ | ⟨pl, _, _, hfin⟩
  · exact main _ _ hfin
  · exact main _ _ hfin

set_option maxRecDepth 8000 in
/-- Counterexample to C2: with tick size 1/4 and the one-row grid anchored
at level 100, the price `100 - 1/16` is within half a tick (1/8) of the
level, so the claim says it matches row 0; but the lookup (`math.isclose`)
rejects it, and the trade at that price is treated as matching no row — it
clears the aggregate in column 4 instead of adding to it. -/
theorem claim2_counterexample :
    |(100 : ℚ) - (100 - 1/16)| ≤ (1/2) * (1/4) ∧
    isclose 100 (100 - 1/16) = false ∧
    sC2b.price_ladder = some [100] ∧
    sC2b.price_ladder_df[0]? = some rowC2b ∧
    sC2b.trades_df[sC2b.trades_row]? =
      some { time_value := 3, price := 100 - 1/16, volume := 2 } ∧
    sC2c.price_ladder_df[0]? = some rowC2c := by
  with_unfolding_all decide

set_option maxRecDepth 8000 in
/-- Witness for C2: the amended statement applied to the quote of the
`mdC2` run; level 100 equals the ask price, so the relative-tolerance test
passes and row 0 carries the ask size 5. -/
theorem claim2_witness :
    rowC2c.col3 =
      (if |(100 : ℚ) - 100| ≤ relTol * max |(100 : ℚ)| |(100 : ℚ)|
        then some (5 : ℤ) else none) := by
  have h := claim2 mdC2 sC2a
    { time_value := 1, bid_price := 399/4, bid_size := 8,
      ask_price := 100, ask_size := 5 }
    (by with_unfolding_all decide) (by with_unfolding_all decide)
  obtain ⟨pl, hpl, hlen, hdlen, hrows⟩ := h
  have hpleq : pl = [(100 : ℚ)] := by
    have h2 : sC2a.price_ladder = some [(100 : ℚ)] := by
      with_unfolding_all decide
    rw [h2] at hpl
    exact (Option.some.inj hpl).symm
  subst hpleq
  exact (hrows 0 100 rowC2c rfl (by with_unfolding_all decide)).1

lemma sorted_le {α : Type} {R : α → α → Prop} {l : List α}
    (hs : l.Pairwise R) {i j : ℕ} {a b : α} (hij : i < j)
    (ha : l[i]? = some a) (hb : l[j]? = some b) : R a b := by
  obtain ⟨hi, rfl⟩ := List.getElem?_eq_some.mp ha
  obtain ⟨hj, rfl⟩ := List.getElem?_eq_some.mp hb
  exact List.pairwise_iff_getElem.mp hs i j hi hj hij

lemma step_qexhausted (md : MarketData)
    (hex : ¬(md.quotes_row ≥ md.quotes_df.length ∧
      md.trades_row ≥ md.trades_df.length))
    (hqe : md.quotes_row ≥ md.quotes_df.length) :
    get_next_price_ladder_df md =
      match update_trade md with
      | some md' => (StepOut.snapshot, md')
      | none => (StepOut.error, md) := by
  unfold get_next_price_ladder_df
  rw [if_neg hex, if_pos hqe]

lemma step_texhausted (md : MarketData)
    (hql : md.quotes_row < md.quotes_df.length)
    (hte : md.trades_row ≥ md.trades_df.length) :
    get_next_price_ladder_df md =
      match update_quote md with
      | some md' => (StepOut.snapshot, md')
      | none => (StepOut.error, md) := by
  unfold get_next_price_ladder_df
  rw [if_neg (by omega), if_neg (by omega), if_pos hte]

lemma step_both {md : MarketData} {q : Quote} {t : Trade}
    (hq : md.quotes_df[md.quotes_row]? = some q)
    (ht : md.trades_df[md.trades_row]? = some t) :
    get_next_price_ladder_df md =
      if q.time_value < t.time_value then
        match update_quote md with
        | some md' => (StepOut.snapshot, md')
        | none => (StepOut.error, md)
      else
        match update_trade md with
        | some md' => (StepOut.snapshot, md')
        | none => (StepOut.error, md) := by
  have hql : md.quotes_row < md.quotes_df.length :=
    (List.getElem?_eq_some.mp hq).1
  have htl : md.trades_row < md.trades_df.length :=
    (List.getElem?_eq_some.mp ht).1
  unfold get_next_price_ladder_df
  rw [if_neg (by omega), if_neg (by omega), if_neg (by omega), hq, ht]

lemma update_trade_total {md : MarketData} {pl : List ℚ} {t : Trade}
    (h0 : md.quotes_row ≠ 0) (hpl : md.price_ladder = some pl)
    (ht : md.trades_df[md.trades_row]? = some t)
    (hlen : pl.length = md.config.row_count)
    (hdlen : md.price_ladder_df.length = md.config.row_count) :
    update_trade md = some { md with
      price_ladder_df :=
        (pl.zip md.price_ladder_df).map (fun p => applyTradeRow t p.1 p.2)
      trades_row := md.trades_row + 1 } := by
  unfold update_trade
  rw [if_neg h0, hpl, ht]
  simp [hlen, hdlen]

lemma step_consumed (md : MarketData)
    (h : (get_next_price_ladder_df md).1 = StepOut.snapshot) :
    (∃ q md', md.quotes_df[md.quotes_row]? = some q ∧
      update_quote md = some md' ∧ (get_next_price_ladder_df md).2 = md' ∧
      (∀ t, md.trades_df[md.trades_row]? = some t →
        q.time_value < t.time_value)) ∨
    (∃ t md', md.trades_df[md.trades_row]? = some t ∧
      update_trade md = some md' ∧ (get_next_price_ladder_df md).2 = md' ∧
      (∀ q, md.quotes_df[md.quotes_row]? = some q →
        t.time_value ≤ q.time_value)) := by
  by_cases hex : md.quotes_row ≥ md.quotes_df.length ∧
      md.trades_row ≥ md.trades_df.length
  · exfalso
    have hterm : get_next_price_ladder_df md = (StepOut.terminal, md) := by
      unfold get_next_price_ladder_df
      rw [if_pos hex]
    rw [hterm] at h
    simp at h
  · by_cases hqe : md.quotes_row ≥ md.quotes_df.length
    · have hstep := step_qexhausted md hex hqe
      have htl : md.trades_row < md.trades_df.length := by
        rcases not_and_or.mp hex with hc | hc
        · exact absurd hqe hc
        · omega
      obtain ⟨t, ht⟩ : ∃ t, md.trades_df[md.trades_row]? = some t :=
        ⟨_, List.getElem?_eq_getElem htl⟩
      cases hu : update_trade md with
      | none => rw [hstep, hu] at h; simp at h
      | some md' =>
        refine Or.inr ⟨t, md', ht, rfl, by rw [hstep, hu], ?_⟩
        intro q hq
        rw [List.getElem?_eq_none hqe] at hq
        exact absurd hq (by simp)
    · by_cases hte : md.trades_row ≥ md.trades_df.length
      · have hql : md.quotes_row < md.quotes_df.length := by omega
        have hstep := step_texhausted md hql hte
        obtain ⟨q, hq⟩ : ∃ q, md.quotes_df[md.quotes_row]? = some q :=
          ⟨_, List.getElem?_eq_getElem hql⟩
        cases hu : update_quote md with
        | none => rw [hstep, hu] at h; simp at h
        | some md' =>
          refine Or.inl ⟨q, md', hq, rfl, by rw [hstep, hu], ?_⟩
          intro t ht
          rw [List.getElem?_eq_none hte] at ht
          exact absurd ht (by simp)
      · have hql : md.quotes_row < md.quotes_df.length := by omega
        have htl : md.trades_row < md.trades_df.length := by omega
        obtain ⟨q, hq⟩ : ∃ q, md.quotes_df[md.quotes_row]? = some q :=
          ⟨_, List.getElem?_eq_getElem hql⟩
        obtain ⟨t, ht⟩ : ∃ t, md.trades_df[md.trades_row]? = some t :=
          ⟨_, List.getElem?_eq_getElem htl⟩
        have hstep := step_both hq ht
        by_cases hlt : q.time_value < t.time_value
        · rw [if_pos hlt] at hstep
          cases hu : update_quote md with
          | none => rw [hstep, hu] at h; simp at h
          | some md' =>
            refine Or.inl ⟨q, md', hq, rfl, by rw [hstep, hu], ?_⟩
            intro t' ht'
            rw [ht] at ht'
            cases Option.some.inj ht'
            exact hlt
        · rw [if_neg hlt] at hstep
          cases hu : update_trade md with
          | none => rw [hstep, hu] at h; simp at h
          | some md' =>
            refine Or.inr ⟨t, md', ht, rfl, by rw [hstep, hu], ?_⟩
            intro q' hq'
            rw [hq] at hq'
            cases Option.some.inj hq'
            exact le_of_not_lt hlt

lemma nextEventTs_both {md : MarketData} {q : Quote} {t : Trade}
    (hq : md.quotes_df[md.quotes_row]? = some q)
    (ht : md.trades_df[md.trades_row]? = some t) :
    nextEventTs md = some (min q.time_value t.time_value) := by
  unfold nextEventTs
  rw [hq, ht]

lemma nextEventTs_qonly {md : MarketData} {q : Quote}
    (hq : md.quotes_df[md.quotes_row]? = some q)
    (ht : md.trades_df[md.trades_row]? = none) :
    nextEventTs md = some q.time_value := by
  unfold nextEventTs
  rw [hq, ht]

lemma nextEventTs_tonly {md : MarketData} {t : Trade}
    (hq : md.quotes_df[md.quotes_row]? = none)
    (ht : md.trades_df[md.trades_row]? = some t) :
    nextEventTs md = some t.time_value := by
  unfold nextEventTs
  rw [hq, ht]

/-- C1 (amended): when the next unconsumed quote and trade carry equal
timestamps, `get_next_price_ladder_df` applies the trade, not the quote;
more generally the sequence of applied events is non-decreasing in
timestamp, with trades breaking ties before quotes at equal timestamps
(the timestamp of the next unconsumed event never decreases across a
successful step when both input streams are sorted). -/
theorem claim1 (md : MarketData) :
    (∀ (q : Quote) (t : Trade), md.quotes_df[md.quotes_row]? = some q →
      md.trades_df[md.trades_row]? = some t →
      q.time_value = t.time_value →
      (md.quotes_row = 0 ∨ (∃ pl, md.price_ladder = some pl ∧
        pl.length = md.config.row_count ∧
        md.price_ladder_df.length = md.config.row_count)) →
      (get_next_price_ladder_df md).1 = StepOut.snapshot ∧
      (get_next_price_ladder_df md).2.trades_row = md.trades_row + 1 ∧
      (get_next_price_ladder_df md).2.quotes_row = md.quotes_row) ∧
    (QuotesSorted md.quotes_df → TradesSorted md.trades_df →
      (get_next_price_ladder_df md).1 = StepOut.snapshot →
      ∀ (ts ts' : ℚ), nextEventTs md = some ts →
        nextEventTs (get_next_price_ladder_df md).2 = some ts' →
        ts ≤ ts') := by
  constructor
  · intro q t hq ht heq hwf
    have hstep := step_both hq ht
    rw [if_neg (by rw [heq]; exact lt_irrefl _)] at hstep
    have hsucc : ∃ md', update_trade md = some md' := by
      by_cases h0 : md.quotes_row = 0
      · exact ⟨_, by unfold update_trade; rw [if_pos h0]⟩
      · rcases hwf with h | ⟨pl, hpl, hlen, hdlen⟩
        · exact absurd h h0
        · exact ⟨_, update_trade_total h0 hpl ht hlen hdlen⟩
    obtain ⟨md', hu⟩ := hsucc
    obtain ⟨_, _, hqrow, htrow, _, _⟩ := update_trade_frame hu
    rw [hstep, hu]
    exact ⟨rfl, htrow, hqrow⟩
  · intro hsq hst hsnap ts ts' hts hts'
    rcases step_consumed md hsnap with
      ⟨q, md', hq, hu, heq, hcmp⟩ | ⟨t, md', ht, hu, heq, hcmp⟩
    · obtain ⟨_, hqrow, htrow, hqdf, htdf⟩ := update_quote_frame hu
      have hts_eq : ts = q.time_value := by
        cases hth : md.trades_df[md.trades_row]? with
        | none =>
          rw [nextEventTs_qonly hq hth] at hts
          exact (Option.some.inj hts).symm
        | some t0 =>
          rw [nextEventTs_both hq hth] at hts
          rw [min_eq_left (hcmp t0 hth).le] at hts
          exact (Option.some.inj hts).symm
      subst hts_eq
      rw [heq] at hts'
      unfold nextEventTs at hts'
      rw [hqdf, htdf, hqrow, htrow] at hts'
      cases hq2 : md.quotes_df[md.quotes_row + 1]? with
      | none =>
        cases hth2 : md.trades_df[md.trades_row]? with
        | none => rw [hq2, hth2] at hts'; simp at hts'
        | some t2 =>
          rw [hq2, hth2] at hts'
          simp only [Option.some.injEq] at hts'
          rw [← hts']
          exact (hcmp t2 hth2).le
      | some q2 =>
        have hqle : q.time_value ≤ q2.time_value :=
          sorted_le hsq (Nat.lt_succ_self _) hq hq2
        cases hth2 : md.trades_df[md.trades_row]? with
        | none =>
          rw [hq2, hth2] at hts'
          simp only [Option.some.injEq] at hts'
          rw [← hts']
          exact hqle
        | some t2 =>
          rw [hq2, hth2] at hts'
          simp only [Option.some.injEq] at hts'
          rw [← hts']
          exact le_min hqle (hcmp t2 hth2).le
    · obtain ⟨_, _, hqrow, htrow, hqdf, htdf⟩ := update_trade_frame hu
      have hts_eq : ts = t.time_value := by
        cases hqh : md.quotes_df[md.quotes_row]? with
        | none =>
          rw [nextEventTs_tonly hqh ht] at hts
          exact (Option.some.inj hts).symm
        | some q0 =>
          rw [nextEventTs_both hqh ht] at hts
          rw [min_eq_right (hcmp q0 hqh)] at hts
          exact (Option.some.inj hts).symm
      subst hts_eq
      rw [heq] at hts'
      unfold nextEventTs at hts'
      rw [hqdf, htdf, hqrow, htrow] at hts'
      cases hq2 : md.quotes_df[md.quotes_row]? with
      | none =>
        cases hth2 : md.trades_df[md.trades_row + 1]? with
        | none => rw [hq2, hth2] at hts'; simp at hts'
        | some t2 =>
          rw [hq2, hth2] at hts'
          simp only [Option.some.injEq] at hts'
          rw [← hts']
          exact sorted_le hst (Nat.lt_succ_self _) ht hth2
      | some q2 =>
        have hqle : t.time_value ≤ q2.time_value := hcmp q2 hq2
        cases hth2 : md.trades_df[md.trades_row + 1]? with
        | none =>
          rw [hq2, hth2] at hts'
          simp only [Option.some.injEq] at hts'
          rw [← hts']
          exact hqle
        | some t2 =>
          rw [hq2, hth2] at hts'
          simp only [Option.some.injEq] at hts'
          rw [← hts']
          exact le_min hqle (sorted_le hst (Nat.lt_succ_self _) ht hth2)

/-- Counterexample to C1: in state `mdTie` the next quote and the next trade
both carry timestamp 5; the claim says the quote is applied, but the call
consumes the trade — the trades cursor advances and the quotes cursor does
not. -/
theorem claim1_counterexample :
    (mdTie.quotes_df[mdTie.quotes_row]?).map Quote.time_value =
      (mdTie.trades_df[mdTie.trades_row]?).map Trade.time_value ∧
    (get_next_price_ladder_df mdTie).1 = StepOut.snapshot ∧
    (get_next_price_ladder_df mdTie).2.quotes_row = 0 ∧
    (get_next_price_ladder_df mdTie).2.trades_row = 1 := by
  with_unfolding_all decide

set_option maxRecDepth 8000 in
/-- Witness for C1: the amended statement applied to the concrete tied state
`mdTie` (both parts, with sorted singleton streams). -/
theorem claim1_witness :
    ((get_next_price_ladder_df mdTie).1 = StepOut.snapshot ∧
     (get_next_price_ladder_df mdTie).2.trades_row = mdTie.trades_row + 1 ∧
     (get_next_price_ladder_df mdTie).2.quotes_row = mdTie.quotes_row) ∧
    (5 : ℚ) ≤ 5 := by
  constructor
  · exact (claim1 mdTie).1
      { time_value := 5, bid_price := 100, bid_size := 10,
        ask_price := 101, ask_size := 5 }
      { time_value := 5, price := 100, volume := 4 }
      (by with_unfolding_all decide) (by with_unfolding_all decide) rfl
      (Or.inl rfl)
  · exact (claim1 mdTie).2
      (by unfold QuotesSorted mdTie init; simp)
      (by unfold TradesSorted mdTie init; simp)
      (by with_unfolding_all decide) 5 5
      (by with_unfolding_all decide) (by with_unfolding_all decide)

lemma anchorLevels_length (a t : ℚ) (n : ℕ) :
    (anchorLevels a t n).length = n := by
  unfold anchorLevels
  rw [List.length_map, List.length_range]

lemma anchoredDf_length (pl : List ℚ) :
    (anchoredDf pl).length = pl.length := by
  unfold anchoredDf
  rw [List.length_map]

lemma quoteFinish_total {md : MarketData} {q : Quote} {pl : List ℚ}
    {df : List Row} (hlen : pl.length = md.config.row_count)
    (hdlen : df.length = md.config.row_count) :
    quoteFinish md q pl df = some { md with
      price_ladder := some pl
      price_ladder_df := (pl.zip df).map (fun p => applyQuoteRow q p.1 p.2)
      quotes_row := md.quotes_row + 1 } := by
  unfold quoteFinish
  rw [if_pos ⟨hlen, hdlen⟩]

lemma update_quote_total {md : MarketData} {q : Quote}
    (hq : md.quotes_df[md.quotes_row]? = some q)
    (hwf : md.quotes_row = 0 ∨ (∃ pl, md.price_ladder = some pl ∧
      pl ≠ [] ∧ pl.length = md.config.row_count ∧
      md.price_ladder_df.length = md.config.row_count)) :
    ∃ md', update_quote md = some md' := by
  by_cases h0 : md.quotes_row = 0
  · have hrc : reanchorCheck md q = some true := by
      unfold reanchorCheck
      rw [if_pos h0]
    have e : update_quote md = quoteFinish md q
        (anchorLevels (reanchorTop md.config q) md.config.tick_size
          md.config.row_count)
        (anchoredDf (anchorLevels (reanchorTop md.config q)
          md.config.tick_size md.config.row_count)) := by
      unfold update_quote
      simp only [hq, hrc]
    exact ⟨_, e.trans (quoteFinish_total (anchorLevels_length _ _ _)
      (by rw [anchoredDf_length, anchorLevels_length]))⟩
  · rcases hwf with h | ⟨pl, hpl, hne, hlen, hdlen⟩
    · exact absurd h h0
    obtain ⟨top, htop⟩ : ∃ x, pl.head? = some x := by
      cases pl with
      | nil => exact absurd rfl hne
      | cons x xs => exact ⟨x, rfl⟩
    obtain ⟨bot, hbot⟩ : ∃ x, pl.getLast? = some x := by
      cases hg : pl.getLast? with
      | some x => exact ⟨x, rfl⟩
      | none => exact absurd (List.getLast?_eq_none_iff.mp hg) hne
    have hrc : reanchorCheck md q =
        some (decide (top + (1/2) * md.config.tick_size < q.ask_price) ||
          decide (q.bid_price < bot - (1/2) * md.config.tick_size)) := by
      unfold reanchorCheck
      rw [if_neg h0, hpl]
      simp only [htop, hbot]
    cases hb : (decide (top + (1/2) * md.config.tick_size < q.ask_price) ||
        decide (q.bid_price < bot - (1/2) * md.config.tick_size)) with
    | true =>
      rw [hb] at hrc
      have e : update_quote md = quoteFinish md q
          (anchorLevels (reanchorTop md.config q) md.config.tick_size
            md.config.row_count)
          (anchoredDf (anchorLevels (reanchorTop md.config q)
            md.config.tick_size md.config.row_count)) := by
        unfold update_quote
        simp only [hq, hrc]
      exact ⟨_, e.trans (quoteFinish_total (anchorLevels_length _ _ _)
        (by rw [anchoredDf_length, anchorLevels_length]))⟩
    | false =>
      rw [hb] at hrc
      have e : update_quote md = quoteFinish md q pl md.price_ladder_df := by
        unfold update_quote
        simp only [hq, hrc, hpl]
      exact ⟨_, e.trans (quoteFinish_total hlen hdlen)⟩

lemma reanchorCheck_pending {md md₂ : MarketData} (h : SamePending md md₂)
    (q : Quote) : reanchorCheck md₂ q = reanchorCheck md q := by
  unfold reanchorCheck
  rw [h.quotes_row_eq, h.ladder_eq, h.config_eq]

lemma quoteFinish_pending {md md₂ : MarketData} (h : SamePending md md₂)
    (q : Quote) (pl : List ℚ) (df : List Row) :
    (quoteFinish md q pl df = none ∧ quoteFinish md₂ q pl df = none) ∨
    (∃ a b, quoteFinish md q pl df = some a ∧
      quoteFinish md₂ q pl df = some b ∧ SamePending a b) := by
  unfold quoteFinish
  rw [h.config_eq]
  by_cases hc : pl.length = md.config.row_count ∧
      df.length = md.config.row_count
  · rw [if_pos hc, if_pos hc]
    refine Or.inr ⟨_, _, rfl, rfl, ?_⟩
    exact { config_eq := rfl
            ladder_eq := rfl
            df_eq := rfl
            quotes_row_eq := by rw [h.quotes_row_eq]
            trades_row_eq := h.trades_row_eq
            quotes_len_eq := h.quotes_len_eq
            trades_len_eq := h.trades_len_eq
            quotes_pending := fun i hi =>
              h.quotes_pending i (Nat.le_trans (Nat.le_succ _) hi)
            trades_pending := h.trades_pending }
  · rw [if_neg hc, if_neg hc]
    exact Or.inl ⟨rfl, rfl⟩

lemma update_quote_pending {md md₂ : MarketData} (h : SamePending md md₂) :
    (update_quote md = none ∧ update_quote md₂ = none) ∨
    (∃ a b, update_quote md = some a ∧ update_quote md₂ = some b ∧
      SamePending a b) := by
  have hqhead : md₂.quotes_df[md₂.quotes_row]? =
      md.quotes_df[md.quotes_row]? := by
    rw [h.quotes_row_eq]
    exact h.quotes_pending _ le_rfl
  cases hq : md.quotes_df[md.quotes_row]? with
  | none =>
    have hq₂ : md₂.quotes_df[md₂.quotes_row]? = none := by
      rw [hqhead]; exact hq
    left
    constructor
    · unfold update_quote; simp only [hq]
    · unfold update_quote; simp only [hq₂]
  | some q =>
    have hq₂ : md₂.quotes_df[md₂.quotes_row]? = some q := by
      rw [hqhead]; exact hq
    have hrc := reanchorCheck_pending h q
    cases hc : reanchorCheck md q with
    | none =>
      have hc₂ : reanchorCheck md₂ q = none := by rw [hrc]; exact hc
      left
      constructor
      · unfold update_quote; simp only [hq, hc]
      · unfold update_quote; simp only [hq₂, hc₂]
    | some b =>
      have hc₂ : reanchorCheck md₂ q = some b := by rw [hrc]; exact hc
      cases b with
      | true =>
        have e1 : update_quote md = quoteFinish md q
            (anchorLevels (reanchorTop md.config q) md.config.tick_size
              md.config.row_count)
            (anchoredDf (anchorLevels (reanchorTop md.config q)
              md.config.tick_size md.config.row_count)) := by
          unfold update_quote
          simp only [hq, hc]
        have e2 : update_quote md₂ = quoteFinish md₂ q
            (anchorLevels (reanchorTop md.config q) md.config.tick_size
              md.config.row_count)
            (anchoredDf (anchorLevels (reanchorTop md.config q)
              md.config.tick_size md.config.row_count)) := by
          unfold update_quote
          simp only [hq₂, hc₂, h.config_eq]
        rw [e1, e2]
        exact quoteFinish_pending h q _ _
      | false =>
        cases hpl : md.price_ladder with
        | none =>
          have hpl₂ : md₂.price_ladder = none := by
            rw [h.ladder_eq]; exact hpl
          left
          constructor
          · unfold update_quote; simp only [hq, hc, hpl]
          · unfold update_quote; simp only [hq₂, hc₂, hpl₂]
        | some pl =>
          have hpl₂ : md₂.price_ladder = some pl := by
            rw [h.ladder_eq]; exact hpl
          have e1 : update_quote md =
              quoteFinish md q pl md.price_ladder_df := by
            unfold update_quote
            simp only [hq, hc, hpl]
          have e2 : update_quote md₂ =
              quoteFinish md₂ q pl md.price_ladder_df := by
            unfold update_quote
            simp only [hq₂, hc₂, hpl₂, h.df_eq]
          rw [e1, e2]
          exact quoteFinish_pending h q _ _

lemma update_trade_pending {md md₂ : MarketData} (h : SamePending md md₂) :
    (update_trade md = none ∧ update_trade md₂ = none) ∨
    (∃ a b, update_trade md = some a ∧ update_trade md₂ = some b ∧
      SamePending a b) := by
  have hthead : md₂.trades_df[md₂.trades_row]? =
      md.trades_df[md.trades_row]? := by
    rw [h.trades_row_eq]
    exact h.trades_pending _ le_rfl
  by_cases h0 : md.quotes_row = 0
  · have h0₂ : md₂.quotes_row = 0 := by rw [h.quotes_row_eq]; exact h0
    refine Or.inr ⟨{ md with trades_row := md.trades_row + 1 },
      { md₂ with trades_row := md₂.trades_row + 1 }, ?_, ?_, ?_⟩
    · unfold update_trade; rw [if_pos h0]
    · unfold update_trade; rw [if_pos h0₂]
    · exact { config_eq := h.config_eq
              ladder_eq := h.ladder_eq
              df_eq := h.df_eq
              quotes_row_eq := h.quotes_row_eq
              trades_row_eq := by rw [h.trades_row_eq]
              quotes_len_eq := h.quotes_len_eq
              trades_len_eq := h.trades_len_eq
              quotes_pending := h.quotes_pending
              trades_pending := fun i hi =>
                h.trades_pending i (Nat.le_trans (Nat.le_succ _) hi) }
  · have h0₂ : ¬ md₂.quotes_row = 0 := by rw [h.quotes_row_eq]; exact h0
    cases hpl : md.price_ladder with
    | none =>
      have hpl₂ : md₂.price_ladder = none := by rw [h.ladder_eq]; exact hpl
      left
      constructor
      · unfold update_trade; rw [if_neg h0]; simp only [hpl]
      · unfold update_trade; rw [if_neg h0₂]; simp only [hpl₂]
    | some pl =>
      have hpl₂ : md₂.price_ladder = some pl := by
        rw [h.ladder_eq]; exact hpl
      cases hth : md.trades_df[md.trades_row]? with
      | none =>
        have hth₂ : md₂.trades_df[md₂.trades_row]? = none := by
          rw [hthead]; exact hth
        left
        constructor
        · unfold update_trade; rw [if_neg h0]; simp only [hpl, hth]
        · unfold update_trade; rw [if_neg h0₂]; simp only [hpl₂, hth₂]
      | some t =>
        have hth₂ : md₂.trades_df[md₂.trades_row]? = some t := by
          rw [hthead]; exact hth
        by_cases hc : pl.length = md.config.row_count ∧
            md.price_ladder_df.length = md.config.row_count
        · refine Or.inr ⟨{ md with
              price_ladder_df := (pl.zip md.price_ladder_df).map
                (fun p => applyTradeRow t p.1 p.2)
              trades_row := md.trades_row + 1 },
            { md₂ with
              price_ladder_df := (pl.zip md.price_ladder_df).map
                (fun p => applyTradeRow t p.1 p.2)
              trades_row := md₂.trades_row + 1 }, ?_, ?_, ?_⟩
          · unfold update_trade
            rw [if_neg h0]
            simp only [hpl, hth]
            rw [if_pos hc]
          · unfold update_trade
            rw [if_neg h0₂]
            simp only [hpl₂, hth₂, h.config_eq, h.df_eq]
            rw [if_pos hc]
          · exact { config_eq := h.config_eq
                    ladder_eq := h.ladder_eq
                    df_eq := rfl
                    quotes_row_eq := h.quotes_row_eq
                    trades_row_eq := by rw [h.trades_row_eq]
                    quotes_len_eq := h.quotes_len_eq
                    trades_len_eq := h.trades_len_eq
                    quotes_pending := h.quotes_pending
                    trades_pending := fun i hi =>
                      h.trades_pending i (Nat.le_trans (Nat.le_succ _) hi) }
        · left
          constructor
          · unfold update_trade
            rw [if_neg h0]
            simp only [hpl, hth]
            rw [if_neg hc]
          · unfold update_trade
            rw [if_neg h0₂]
            simp only [hpl₂, hth₂, h.config_eq, h.df_eq]
            rw [if_neg hc]

lemma step_pending {md md₂ : MarketData} (h : SamePending md md₂) :
    (get_next_price_ladder_df md₂).1 = (get_next_price_ladder_df md).1 ∧
    SamePending (get_next_price_ladder_df md).2
      (get_next_price_ladder_df md₂).2 := by
  have hqhead : md₂.quotes_df[md₂.quotes_row]? =
      md.quotes_df[md.quotes_row]? := by
    rw [h.quotes_row_eq]
    exact h.quotes_pending _ le_rfl
  have hthead : md₂.trades_df[md₂.trades_row]? =
      md.trades_df[md.trades_row]? := by
    rw [h.trades_row_eq]
    exact h.trades_pending _ le_rfl
  by_cases hex : md.quotes_row ≥ md.quotes_df.length ∧
      md.trades_row ≥ md.trades_df.length
  · have h1 : get_next_price_ladder_df md = (StepOut.terminal, md) := by
      unfold get_next_price_ladder_df
      rw [if_pos hex]
    have h2 : get_next_price_ladder_df md₂ = (StepOut.terminal, md₂) := by
      unfold get_next_price_ladder_df
      rw [if_pos (by
        rw [h.quotes_row_eq, h.trades_row_eq, h.quotes_len_eq,
          h.trades_len_eq]
        exact hex)]
    rw [h1, h2]
    exact ⟨rfl, h⟩
  · have hex₂ : ¬(md₂.quotes_row ≥ md₂.quotes_df.length ∧
        md₂.trades_row ≥ md₂.trades_df.length) := by
      rw [h.quotes_row_eq, h.trades_row_eq, h.quotes_len_eq, h.trades_len_eq]
      exact hex
    by_cases hqe : md.quotes_row ≥ md.quotes_df.length
    · have hqe₂ : md₂.quotes_row ≥ md₂.quotes_df.length := by
        rw [h.quotes_row_eq, h.quotes_len_eq]
        exact hqe
      have h1 := step_qexhausted md hex hqe
      have h2 := step_qexhausted md₂ hex₂ hqe₂
      rcases update_trade_pending h with ⟨hn, hn₂⟩ | ⟨a, b, ha, hb, hab⟩
      · rw [h1, h2, hn, hn₂]
        exact ⟨rfl, h⟩
      · rw [h1, h2, ha, hb]
        exact ⟨rfl, hab⟩
    · by_cases hte : md.trades_row ≥ md.trades_df.length
      · have hql : md.quotes_row < md.quotes_df.length := by omega
        have hql₂ : md₂.quotes_row < md₂.quotes_df.length := by
          rw [h.quotes_row_eq, h.quotes_len_eq]
          exact hql
        have hte₂ : md₂.trades_row ≥ md₂.trades_df.length := by
          rw [h.trades_row_eq, h.trades_len_eq]
          exact hte
        have h1 := step_texhausted md hql hte
        have h2 := step_texhausted md₂ hql₂ hte₂
        rcases update_quote_pending h with ⟨hn, hn₂⟩ | ⟨a, b, ha, hb, hab⟩
        · rw [h1, h2, hn, hn₂]
          exact ⟨rfl, h⟩
        · rw [h1, h2, ha, hb]
          exact ⟨rfl, hab⟩
      · have hql : md.quotes_row < md.quotes_df.length := by omega
        have htl : md.trades_row < md.trades_df.length := by omega
        obtain ⟨q, hq⟩ : ∃ q, md.quotes_df[md.quotes_row]? = some q :=
          ⟨_, List.getElem?_eq_getElem hql⟩
        obtain ⟨t, ht⟩ : ∃ t, md.trades_df[md.trades_row]? = some t :=
          ⟨_, List.getElem?_eq_getElem htl⟩
        have hq₂ : md₂.quotes_df[md₂.quotes_row]? = some q := by
          rw [hqhead]; exact hq
        have ht₂ : md₂.trades_df[md₂.trades_row]? = some t := by
          rw [hthead]; exact ht
        have h1 := step_both hq ht
        have h2 := step_both hq₂ ht₂
        by_cases hlt : q.time_value < t.time_value
        · rw [if_pos hlt] at h1 h2
          rcases update_quote_pending h with ⟨hn, hn₂⟩ | ⟨a, b, ha, hb, hab⟩
          · rw [h1, h2, hn, hn₂]
            exact ⟨rfl, h⟩
          · rw [h1, h2, ha, hb]
            exact ⟨rfl, hab⟩
        · rw [if_neg hlt] at h1 h2
          rcases update_trade_pending h with ⟨hn, hn₂⟩ | ⟨a, b, ha, hb, hab⟩
          · rw [h1, h2, hn, hn₂]
            exact ⟨rfl, h⟩
          · rw [h1, h2, ha, hb]
            exact ⟨rfl, hab⟩

lemma sC5_samePending : SamePending sC5 sC5b := by
  refine { config_eq := rfl
           ladder_eq := rfl
           df_eq := rfl
           quotes_row_eq := rfl
           trades_row_eq := rfl
           quotes_len_eq := rfl
           trades_len_eq := by with_unfolding_all decide
           quotes_pending := fun i _ => rfl
           trades_pending := ?_ }
  intro i hi
  have h1 : sC5.trades_row = 1 := by with_unfolding_all decide
  rw [h1] at hi
  rcases i with _ | _ | n
  · omega
  · with_unfolding_all decide
  · have e1 : sC5b.trades_df.length = 2 := by with_unfolding_all decide
    have e2 : sC5.trades_df.length = 2 := by with_unfolding_all decide
    rw [List.getElem?_eq_none (by omega), List.getElem?_eq_none (by omega)]

/-- C5 (amended): the engine performs no ordering check.  (i) A quote at the
cursor is consumed — the call succeeds and the quotes cursor advances —
whenever the merge selects the quote stream, whatever the record's
timestamp; (ii) likewise a trade at the cursor whenever the merge selects
the trade stream; and (iii) the call's outcome and the resulting state's
pending part depend only on the records at and after the two cursors:
replacing the already-consumed records arbitrarily — in particular making
the record at the cursor out of order with respect to the previously
consumed record of its stream — changes neither the result nor the step's
effect.  No ordering failure of any kind exists. -/
theorem claim5 (md md₂ : MarketData) :
    (∀ (q : Quote), md.quotes_df[md.quotes_row]? = some q →
      (md.trades_row ≥ md.trades_df.length ∨
        (∃ t, md.trades_df[md.trades_row]? = some t ∧
          q.time_value < t.time_value)) →
      (md.quotes_row = 0 ∨ (∃ pl, md.price_ladder = some pl ∧ pl ≠ [] ∧
        pl.length = md.config.row_count ∧
        md.price_ladder_df.length = md.config.row_count)) →
      (get_next_price_ladder_df md).1 = StepOut.snapshot ∧
      (get_next_price_ladder_df md).2.quotes_row = md.quotes_row + 1 ∧
      (get_next_price_ladder_df md).2.trades_row = md.trades_row) ∧
    (∀ (t : Trade), md.trades_df[md.trades_row]? = some t →
      (md.quotes_row ≥ md.quotes_df.length ∨
        (∃ q, md.quotes_df[md.quotes_row]? = some q ∧
          ¬ q.time_value < t.time_value)) →
      (md.quotes_row = 0 ∨ (∃ pl, md.price_ladder = some pl ∧
        pl.length = md.config.row_count ∧
        md.price_ladder_df.length = md.config.row_count)) →
      (get_next_price_ladder_df md).1 = StepOut.snapshot ∧
      (get_next_price_ladder_df md).2.trades_row = md.trades_row + 1 ∧
      (get_next_price_ladder_df md).2.quotes_row = md.quotes_row) ∧
    (SamePending md md₂ →
      (get_next_price_ladder_df md₂).1 = (get_next_price_ladder_df md).1 ∧
      SamePending (get_next_price_ladder_df md).2
        (get_next_price_ladder_df md₂).2) := by
  refine ⟨?_, ?_, ?_⟩
  · intro q hq hsel hwf
    obtain ⟨md', hu⟩ := update_quote_total hq hwf
    obtain ⟨_, hqrow, htrow, _, _⟩ := update_quote_frame hu
    rcases hsel with hte | ⟨t, ht, hlt⟩
    · have hql : md.quotes_row < md.quotes_df.length :=
        (List.getElem?_eq_some.mp hq).1
      have hstep := step_texhausted md hql hte
      rw [hstep, hu]
      exact ⟨rfl, hqrow, htrow⟩
    · have hstep := step_both hq ht
      rw [if_pos hlt] at hstep
      rw [hstep, hu]
      exact ⟨rfl, hqrow, htrow⟩
  · intro t ht hsel hwf
    have hsucc : ∃ md', update_trade md = some md' := by
      by_cases h0 : md.quotes_row = 0
      · exact ⟨_, by unfold update_trade; rw [if_pos h0]⟩
      · rcases hwf with hz | ⟨pl, hpl, hlen, hdlen⟩
        · exact absurd hz h0
        · exact ⟨_, update_trade_total h0 hpl ht hlen hdlen⟩
    obtain ⟨md', hu⟩ := hsucc
    obtain ⟨_, _, hqrow, htrow, _, _⟩ := update_trade_frame hu
    rcases hsel with hqe | ⟨q, hq, hnlt⟩
    · have htl : md.trades_row < md.trades_df.length :=
        (List.getElem?_eq_some.mp ht).1
      have hstep := step_qexhausted md (by omega) hqe
      rw [hstep, hu]
      exact ⟨rfl, htrow, hqrow⟩
    · have hstep := step_both hq ht
      rw [if_neg hnlt] at hstep
      rw [hstep, hu]
      exact ⟨rfl, htrow, hqrow⟩
  · intro hsp
    exact step_pending hsp

/-- Witness for C5: the trade part applied at the out-of-order state `sC5`
(next trade timestamp 3 after consuming timestamp 5), the quote part applied
at `mdA`, and the insensitivity part applied to `sC5` against `sC5b`, whose
consumed history was replaced to be maximally out of order. -/
theorem claim5_witness :
    ((get_next_price_ladder_df sC5).1 = StepOut.snapshot ∧
     (get_next_price_ladder_df sC5).2.trades_row = sC5.trades_row + 1 ∧
     (get_next_price_ladder_df sC5).2.quotes_row = sC5.quotes_row) ∧
    ((get_next_price_ladder_df mdA).1 = StepOut.snapshot ∧
     (get_next_price_ladder_df mdA).2.quotes_row = mdA.quotes_row + 1 ∧
     (get_next_price_ladder_df mdA).2.trades_row = mdA.trades_row) ∧
    (get_next_price_ladder_df sC5b).1 = (get_next_price_ladder_df sC5).1 := by
  refine ⟨?_, ?_, ?_⟩
  · exact (claim5 sC5 sC5).2.1 { time_value := 3, price := 100, volume := 2 }
      (by with_unfolding_all decide)
      (Or.inl (by with_unfolding_all decide))
      (Or.inl (by with_unfolding_all decide))
  · exact (claim5 mdA mdA).1
      { time_value := 1, bid_price := 99, bid_size := 10,
        ask_price := 100, ask_size := 5 }
      (by with_unfolding_all decide)
      (Or.inr ⟨{ time_value := 2, price := 99, volume := 3 },
        by with_unfolding_all decide, by with_unfolding_all decide⟩)
      (Or.inl rfl)
  · exact ((claim5 sC5 sC5b).2.2 sC5_samePending).1

end PriceLadder
